import Mathlib

/-!
Verification of the SUUMO rental-listing pipeline
(`scraper.py`, `database.py`, `analyzer.py`).

The Python code is shallowly embedded: strings are `String`/`List Char`,
Python floats holding parsed money values are `ℚ`, SQL rows are structures,
and the network/HTML environment is passed in explicitly.
-/

unseal Rat.mul Rat.add Rat.sub Rat.inv

namespace Suumo

/-- A character matched by the regex class `[\d.]` used by
`SuumoScraper._extract_number` (`re.search(r'([\d.]+)万', ...)` and
`re.findall(r'[\d.]+', ...)`). -/
def digitsDot (c : Char) : Bool :=
  c.isDigit || c == '.'

/-- Numeric value of a digit character (`'0'` ↦ 0, …, `'9'` ↦ 9). -/
def digitVal (c : Char) : Nat :=
  c.toNat - 48

/-- Integer part read from a list of digit characters, as Python's
`float` does for the digits before the decimal point. -/
def natOfDigits (l : List Char) : Nat :=
  l.foldl (fun a c => 10 * a + digitVal c) 0

/-- Fractional value of the digit characters after the decimal point:
`['2','5']` ↦ 0.25. -/
def fracOfDigits (l : List Char) : ℚ :=
  l.foldr (fun c a => ((digitVal c : ℚ) + a) / 10) 0

/-- Value of a well-formed decimal token (at least one digit, at most one
dot), mirroring Python's `float` on strings matched by `[\d.]+`. -/
def floatVal (t : List Char) : ℚ :=
  natOfDigits (t.takeWhile (fun c => c ≠ '.')) +
    fracOfDigits ((t.dropWhile (fun c => c ≠ '.')).drop 1)

/-- Python's `float` applied to a token matched by `[\d.]+`: it succeeds
iff the token holds at least one digit and at most one dot, and raises
`ValueError` (here: `none`) otherwise, e.g. on `"."` or `"1.2.3"`. -/
def parseFloat (t : List Char) : Option ℚ :=
  if t.any Char.isDigit ∧ t.count '.' ≤ 1 then some (floatVal t) else none

/-- Embeds `re.findall(r'[\d.]+', text)`: the maximal runs of digit/dot
characters, left to right.  `cur` is the current run, reversed. -/
def findNumsAux (cur : List Char) : List Char → List (List Char)
  | [] => if cur.isEmpty then [] else [cur.reverse]
  | c :: cs =>
    if digitsDot c then
      findNumsAux (c :: cur) cs
    else if cur.isEmpty then
      findNumsAux [] cs
    else
      cur.reverse :: findNumsAux [] cs

/-- Embedding of `re.findall(r'[\d.]+', text)` on a character list. -/
def findNums (l : List Char) : List (List Char) :=
  findNumsAux [] l

/-- Embeds `re.search(r'([\d.]+)万', text)`: the group of the leftmost match,
i.e. the first maximal digit/dot run immediately followed by `'万'`.
`cur` is the digit/dot run ending just before the current position,
reversed. -/
def searchManAux (cur : List Char) : List Char → Option (List Char)
  | [] => none
  | c :: cs =>
    if digitsDot c then
      searchManAux (c :: cur) cs
    else if c == '万' && !cur.isEmpty then
      some cur.reverse
    else
      searchManAux [] cs

/-- Embeds `text.replace(',', '').replace('円', '')`. -/
def stripSeps (l : List Char) : List Char :=
  l.filter (fun c => !(c == ',' || c == '円'))

/-- Outcome of `SuumoScraper._extract_number`: a parsed value, `None`
(text held no number), or a raised `ValueError` from `float`. -/
inductive ExtractResult where
  | val (q : ℚ)
  | absent
  | err
deriving DecidableEq, Repr

/-- The fall-through branch of `_extract_number`: drop every comma and
`'円'`, then `float` the first `[\d.]+` token if any. -/
def extractPlain (l : List Char) : ExtractResult :=
  match findNums (stripSeps l) with
  | [] => ExtractResult.absent
  | t :: _ =>
    match parseFloat t with
    | some q => ExtractResult.val q
    | none => ExtractResult.err

/-- Embeds `SuumoScraper._extract_number` on the character list of the text:
if `'万'` occurs and a `[\d.]+` run immediately precedes a `'万'`, the
run's value times 10000 (a `float` failure raises); otherwise commas
and `'円'` are removed and the first `[\d.]+` token is the value. -/
def extractNumberL (l : List Char) : ExtractResult :=
  if l.contains '万' then
    match searchManAux [] l with
    | some t =>
      match parseFloat t with
      | some q => ExtractResult.val (q * 10000)
      | none => ExtractResult.err
    | none => extractPlain l
  else
    extractPlain l

/-- Embeds `SuumoScraper._extract_number`. -/
def extract_number (text : String) : ExtractResult :=
  extractNumberL text.toList

/-- Specification-level description of "the first decimal number found":
drop up to the first digit/dot character, then take the maximal digit/dot
run from there. -/
def firstRun (l : List Char) : Option (List Char) :=
  match l.dropWhile (fun c => !digitsDot c) with
  | [] => none
  | c :: cs => some ((c :: cs).takeWhile digitsDot)

/-- Specification-level description of the `re.search(r'([\d.]+)万', ...)`
group: scan for an occurrence of `'万'` that is directly preceded by a
digit/dot run, and report that run.  `pre` is the reversed prefix already
scanned. -/
def specRunBeforeMan (pre : List Char) : List Char → Option (List Char)
  | [] => none
  | c :: cs =>
    if c == '万' && !(pre.takeWhile digitsDot).isEmpty then
      some (pre.takeWhile digitsDot).reverse
    else
      specRunBeforeMan (c :: pre) cs

/-- The leading decimal number of a text, as the spec's `leadingNumber`:
the value of the first digit/dot run. -/
def leadingNumber (text : String) : Option ℚ :=
  match firstRun text.toList with
  | some t => parseFloat t
  | none => none

/-- One `<tbody>` room block inside a listing cassette, reduced to the
text of the four spans the scraper reads (`none` = tag missing). -/
structure Room where
  price_text : Option String
  admin_text : Option String
  layout_text : Option String
  area_text : Option String
deriving DecidableEq, Repr

/-- One `div.cassetteitem` block: title, address and room rows. -/
structure Cassette where
  title : Option String
  address_text : Option String
  rooms : List Room
deriving DecidableEq, Repr

/-- The property dictionary appended by `SuumoScraper.scrape_area`. -/
structure ListingRecord where
  name : String
  address : String
  rent : ℚ
  admin_fee : ℚ
  total : ℚ
  layout : String
  area_size : String
  area_name : String
deriving DecidableEq, Repr

/-- Result of one `requests.get`: a raised exception, or a response with
a status code and the parsed cassette blocks of its body. -/
inductive PageResult where
  | fail
  | http (status : ℕ) (cassettes : List Cassette)
deriving DecidableEq, Repr

/-- The admin-fee computation for one room: `0` when the tag is missing
or the text is `"-"` or parses to `None`; the parsed value otherwise;
`none` here when `_extract_number` raises (the room is then skipped by
the surrounding `try`/`except`).  A parsed `0.0` is falsy in Python, so
`or 0` leaves the value unchanged. -/
def adminFeeOf (room : Room) : Option ℚ :=
  match room.admin_text with
  | none => some 0
  | some a =>
    if a = "-" then some 0
    else
      match extract_number a with
      | ExtractResult.val q => some q
      | ExtractResult.absent => some 0
      | ExtractResult.err => none

/-- The body of the per-room loop in `SuumoScraper.scrape_area`:
`none` when the room is skipped (missing price tag, absent or
below-10000 price, or a raised exception), `some` record otherwise. -/
def processRoom (nm address area_name : String) (room : Room) :
    Option ListingRecord :=
  match room.price_text with
  | none => none
  | some pt =>
    match extract_number pt with
    | ExtractResult.err => none
    | ExtractResult.absent => none
    | ExtractResult.val price =>
      if price < 10000 then none
      else
        match adminFeeOf room with
        | none => none
        | some fee =>
          some { name := nm, address := address, rent := price,
                 admin_fee := fee, total := price + fee,
                 layout := room.layout_text.getD "",
                 area_size := room.area_text.getD "",
                 area_name := area_name }

/-- The per-cassette loop: skip a cassette with no title, else process
every room. -/
def processCassette (area_name : String) (c : Cassette) :
    List ListingRecord :=
  match c.title with
  | none => []
  | some nm =>
    c.rooms.filterMap (processRoom nm (c.address_text.getD "") area_name)

/-- The records one page contributes: none on a request exception or a
non-200 status, else all cassette records in order. -/
def pageRecords (area_name : String) (pr : PageResult) :
    List ListingRecord :=
  match pr with
  | PageResult.fail => []
  | PageResult.http status cas =>
    if status ≠ 200 then [] else (cas.map (processCassette area_name)).flatten

/-- Embeds `SuumoScraper.AREA_CODES`. -/
def AREA_CODES : List (String × String) :=
  [("新宿区", "13104"), ("世田谷区", "13112")]

/-- Embeds `self.AREA_CODES.get(area_name)`. -/
def areaCodeOf (area_name : String) : Option String :=
  (AREA_CODES.find? (fun p => p.1 == area_name)).map Prod.snd

/-- The listings-search URL built for one page. -/
def buildUrl (sc : String) (page : ℕ) : String :=
  "https://suumo.jp/jj/chintai/ichiran/FR301FC001/?ar=030&bs=040&ta=13&sc="
    ++ sc ++ "&page=" ++ toString page

/-- Embeds `SuumoScraper.scrape_area`, with the network passed in as an
environment from URL to response.  Returns the record list and, as
instrumentation of the side effect, the list of URLs fetched.  The
`area_code` argument is kept to mirror the Python signature. -/
def scrape_area (env : String → PageResult)
    (area_code area_name : String) (pages : ℕ) :
    List ListingRecord × List String :=
  match areaCodeOf area_name with
  | none => ([], [])
  | some sc =>
    ((((List.range pages).map (fun i => buildUrl sc (i + 1))).map
        (fun u => pageRecords area_name (env u))).flatten,
      ((List.range pages).map (fun i => buildUrl sc (i + 1))))

/-- A one-page environment with one cassette holding one valid room,
used as concrete witness input. -/
def envW : String → PageResult := fun _ =>
  PageResult.http 200
    [{ title := some "テストマンション", address_text := some "東京都新宿区",
       rooms := [{ price_text := some "8.5万円", admin_text := some "5000円",
                   layout_text := some "1K", area_text := some "25.5m2" }] }]

/-- The record `scrape_area` produces from `envW`. -/
def recW : ListingRecord :=
  { name := "テストマンション", address := "東京都新宿区", rent := 85000,
    admin_fee := 5000, total := 90000, layout := "1K", area_size := "25.5m2",
    area_name := "新宿区" }

/-- One row of the `properties` table; REAL money columns as `ℚ`. -/
structure DBRow where
  name : String
  address : String
  rent : ℚ
  admin_fee : ℚ
  total : ℚ
  layout : String
  area_size : String
  area_name : String
deriving DecidableEq, Repr

/-- Embeds `PropertyDatabase.save_properties`: each record's eight fields —
`total` included — are bound verbatim into the INSERT, appending one row
per record. -/
def save_properties (db : List DBRow) (props : List ListingRecord) :
    List DBRow :=
  db ++ props.map (fun p =>
    { name := p.name, address := p.address, rent := p.rent,
      admin_fee := p.admin_fee, total := p.total, layout := p.layout,
      area_size := p.area_size, area_name := p.area_name })

/-- The WHERE predicate built by
`PropertyDatabase.get_properties_by_conditions`: a condition is appended
only when the Python parameter is truthy (`if area:`, `if min_rent:` …),
so `None`, `0` and `""` all leave the condition out; the appended
conditions are conjoined with AND, and no condition means `1=1`. -/
def condMatches (area : Option String) (min_rent max_rent : Option ℚ)
    (layout : Option String) (r : DBRow) : Bool :=
  (match area with
   | none => true
   | some a => if a = "" then true else r.area_name == a) &&
  (match min_rent with
   | none => true
   | some m => if m = 0 then true else decide (m ≤ r.total)) &&
  (match max_rent with
   | none => true
   | some m => if m = 0 then true else decide (r.total ≤ m)) &&
  (match layout with
   | none => true
   | some lo => if lo = "" then true else r.layout == lo)

/-- Embeds `PropertyDatabase.get_properties_by_conditions` as a row filter. -/
def get_properties_by_conditions (db : List DBRow) (area : Option String)
    (min_rent max_rent : Option ℚ) (layout : Option String) : List DBRow :=
  db.filter (condMatches area min_rent max_rent layout)

/-- One output row of `get_layout_stats`. -/
structure LayoutStat where
  layout : String
  count : ℕ
  avg_rent : ℚ
  min_rent : ℚ
  max_rent : ℚ
deriving DecidableEq, Repr

/-- SQL `MIN` over the group totals. -/
def minAgg : List ℚ → ℚ
  | [] => 0
  | q :: qs => qs.foldl min q

/-- SQL `MAX` over the group totals. -/
def maxAgg : List ℚ → ℚ
  | [] => 0
  | q :: qs => qs.foldl max q

/-- The aggregate row `GROUP BY layout` yields for one layout key. -/
def layoutGroup (rows : List DBRow) (lo : String) : LayoutStat :=
  { layout := lo,
    count := ((rows.filter (fun r => r.layout == lo)).map DBRow.total).length,
    avg_rent := ((rows.filter (fun r => r.layout == lo)).map DBRow.total).sum /
      (((rows.filter (fun r => r.layout == lo)).map DBRow.total).length : ℚ),
    min_rent := minAgg ((rows.filter (fun r => r.layout == lo)).map DBRow.total),
    max_rent := maxAgg ((rows.filter (fun r => r.layout == lo)).map DBRow.total) }

/-- Insertion into a list kept ordered by `avg_rent` descending
(`ORDER BY avg_rent DESC`). -/
def insertByAvgDesc (g : LayoutStat) : List LayoutStat → List LayoutStat
  | [] => [g]
  | h :: t =>
    if h.avg_rent ≤ g.avg_rent then g :: h :: t
    else h :: insertByAvgDesc g t

/-- Insertion sort by `avg_rent` descending. -/
def sortByAvgDesc : List LayoutStat → List LayoutStat
  | [] => []
  | h :: t => insertByAvgDesc h (sortByAvgDesc t)

/-- Embeds `PropertyDatabase.get_layout_stats`: rows with empty layout are
excluded (`WHERE layout` not equal to the empty string), groups with
fewer than 5 rows are dropped (`HAVING COUNT(*) >= 5`), and the groups
are ordered by mean total descending (`ORDER BY avg_rent DESC`). -/
def get_layout_stats (db : List DBRow) : List LayoutStat :=
  sortByAvgDesc
    (((((db.filter (fun r => !(r.layout == ""))).map DBRow.layout).dedup).map
        (layoutGroup (db.filter (fun r => !(r.layout == ""))))).filter
      (fun g => decide (5 ≤ g.count)))

/-- Descending order on mean total: the left stat mean is at least the
right one. -/
def statGE (a b : LayoutStat) : Prop := b.avg_rent ≤ a.avg_rent

/-- A stored row with a negative total, allowed by the schema (`rent
REAL NOT NULL` has no sign constraint). -/
def rowNeg : DBRow :=
  { name := "n", address := "", rent := -5, admin_fee := 0, total := -5,
    layout := "1K", area_size := "", area_name := "新宿区" }

/-- A scraped record whose `total` field disagrees with rent +
admin_fee. -/
def badRec : ListingRecord :=
  { name := "x", address := "", rent := 1, admin_fee := 1, total := 99,
    layout := "", area_size := "", area_name := "新宿区" }

/-- The row `save_properties` persists for `badRec`. -/
def badRow : DBRow :=
  { name := "x", address := "", rent := 1, admin_fee := 1, total := 99,
    layout := "", area_size := "", area_name := "新宿区" }

/-- A stored row with layout `"1K"` and total 60000. -/
def rowK : DBRow :=
  { name := "k", address := "", rent := 55000, admin_fee := 5000,
    total := 60000, layout := "1K", area_size := "", area_name := "新宿区" }

/-- The stat row `get_layout_stats` yields for five copies of `rowK`. -/
def statK : LayoutStat :=
  { layout := "1K", count := 5, avg_rent := 60000, min_rent := 60000,
    max_rent := 60000 }

/-- The totals of the stored rows for one ward: the `total` column of
the rows whose `area_name` equals the ward. -/
def totalsOf (db : List DBRow) (an : String) : List ℚ :=
  (db.filter (fun r => r.area_name == an)).map DBRow.total

/-- Embeds `pandas.Series.mean`: sum over count. -/
def meanQ (l : List ℚ) : ℚ := l.sum / (l.length : ℚ)

/-- Modelled from the spec: `pandas.Series.std` (library code outside
this repository) computes the sample standard deviation with ddof = 1
and yields NaN for fewer than 2 observations — "if either group has
fewer than 2 records, standard deviation and the t-test are undefined".
NaN is `none`; a defined value is represented by its square, the sample
variance, which stays inside `ℚ`. -/
def stdSq (l : List ℚ) : Option ℚ :=
  if 2 ≤ l.length then
    some ((l.map (fun x => (x - meanQ l) ^ 2)).sum / ((l.length : ℚ) - 1))
  else none

/-- The dictionary returned by `PropertyAnalyzer.verify_hypothesis`,
with NaN statistics as `none`. -/
structure HypoResult where
  high_area : String
  low_area : String
  high_avg : ℚ
  high_std : Option ℚ
  low_avg : ℚ
  low_std : Option ℚ
  diff : ℚ
  diff_rate : ℚ
  t_stat : Option ℚ
  p_value : Option ℚ
  hypothesis_accepted : Bool
  annual_diff : ℚ
  five_year_diff : ℚ
deriving Repr

/-- Embeds `PropertyAnalyzer.verify_hypothesis`.  The Welch t-test itself is
library code (`scipy.stats.ttest_ind`), passed in as the argument
`ttest`; modelled from the spec, its t-statistic and p-value are NaN
(`none`) when either group has fewer than 2 records.  The function
checks no group-size precondition and has no raise path. -/
def verify_hypothesis (ttest : List ℚ → List ℚ → ℚ × ℚ)
    (db : List DBRow) : HypoResult :=
  { high_area := "Shinjuku", low_area := "Setagaya",
    high_avg := meanQ (totalsOf db "新宿区"),
    high_std := stdSq (totalsOf db "新宿区"),
    low_avg := meanQ (totalsOf db "世田谷区"),
    low_std := stdSq (totalsOf db "世田谷区"),
    diff := meanQ (totalsOf db "新宿区") - meanQ (totalsOf db "世田谷区"),
    diff_rate := (meanQ (totalsOf db "新宿区") -
      meanQ (totalsOf db "世田谷区")) / meanQ (totalsOf db "世田谷区") * 100,
    t_stat :=
      if 2 ≤ (totalsOf db "新宿区").length ∧ 2 ≤ (totalsOf db "世田谷区").length
      then some (ttest (totalsOf db "新宿区") (totalsOf db "世田谷区")).1
      else none,
    p_value :=
      if 2 ≤ (totalsOf db "新宿区").length ∧ 2 ≤ (totalsOf db "世田谷区").length
      then some (ttest (totalsOf db "新宿区") (totalsOf db "世田谷区")).2
      else none,
    hypothesis_accepted :=
      decide (30 ≤ (meanQ (totalsOf db "新宿区") -
        meanQ (totalsOf db "世田谷区")) / meanQ (totalsOf db "世田谷区") * 100),
    annual_diff :=
      (meanQ (totalsOf db "新宿区") - meanQ (totalsOf db "世田谷区")) * 12,
    five_year_diff :=
      (meanQ (totalsOf db "新宿区") - meanQ (totalsOf db "世田谷区")) * 12 * 5 }

/-- A store with one Shinjuku row and two Setagaya rows. -/
def dbSmall : List DBRow :=
  [{ name := "a", address := "", rent := 100000, admin_fee := 0,
     total := 100000, layout := "1K", area_size := "",
     area_name := "新宿区" },
   { name := "b", address := "", rent := 90000, admin_fee := 0,
     total := 90000, layout := "1K", area_size := "",
     area_name := "世田谷区" },
   { name := "c", address := "", rent := 110000, admin_fee := 0,
     total := 110000, layout := "1K", area_size := "",
     area_name := "世田谷区" }]

example : extract_number "8.5万円" = ExtractResult.val 85000 := by decide

example : extract_number "5000円" = ExtractResult.val 5000 := by decide

example : extract_number "1,200円" = ExtractResult.val 1200 := by decide

example : extract_number "-" = ExtractResult.absent := by decide

example : extract_number "." = ExtractResult.err := by decide

example : extract_number "2DK 8.5万円" = ExtractResult.val 85000 := by decide

theorem findNumsAux_head (l : List Char) : ∀ cur : List Char,
    (findNumsAux cur l).head? =
      if cur.isEmpty then firstRun l
      else some (cur.reverse ++ l.takeWhile digitsDot) := by
  induction l with
  | nil =>
    intro cur
    cases cur <;> simp [findNumsAux, firstRun]
  | cons c cs ih =>
    intro cur
    by_cases h : digitsDot c
    · have h1 := ih (c :: cur)
      simp only [findNumsAux, h, if_true]
      rw [h1]
      cases cur <;>
        simp [firstRun, List.dropWhile_cons, List.takeWhile_cons, h]
    · have hb : digitsDot c = false := by
        simpa using h
      cases cur with
      | nil =>
        have h1 := ih []
        simp only [findNumsAux, hb]
        simp only [Bool.false_eq_true, if_false, List.isEmpty_nil, if_true] at h1 ⊢
        rw [h1, firstRun, firstRun, List.dropWhile_cons]
        simp [hb]
      | cons d ds =>
        simp [findNumsAux, hb, List.takeWhile_cons, firstRun]

/-- Shows `(re.findall(r'[\d.]+', text))[0]` is the first maximal digit/dot
run. -/
theorem findNums_head (l : List Char) :
    (findNums l).head? = firstRun l := by
  have h := findNumsAux_head l []
  simpa [findNums] using h

theorem searchManAux_eq_spec (l : List Char) : ∀ pre cur : List Char,
    pre.takeWhile digitsDot = cur →
    searchManAux cur l = specRunBeforeMan pre l := by
  induction l with
  | nil => intro pre cur _; rfl
  | cons c cs ih =>
    intro pre cur hpre
    by_cases h : digitsDot c
    · have hm : (c == '万') = false := by
        by_cases hc : c = '万'
        · subst hc; exact absurd h (by decide)
        · simpa using hc
      simp only [searchManAux, specRunBeforeMan, h, if_true, hm,
        Bool.false_and, Bool.false_eq_true, if_false]
      exact ih (c :: pre) (c :: cur) (by simp [List.takeWhile_cons, h, hpre])
    · have hb : digitsDot c = false := by simpa using h
      by_cases hm : c = '万'
      · subst hm
        cases cur with
        | nil =>
          have hrec := ih ('万' :: pre) [] (by simp [List.takeWhile_cons, hb])
          simp [searchManAux, specRunBeforeMan, hb, hpre, hrec]
        | cons d ds =>
          simp [searchManAux, specRunBeforeMan, hb, hpre]
      · have hmb : (c == '万') = false := by simpa using hm
        simp only [searchManAux, specRunBeforeMan, hb, Bool.false_eq_true,
          if_false, hmb, Bool.false_and]
        exact ih (c :: pre) [] (by simp [List.takeWhile_cons, hb])

theorem searchMan_eq_spec (l : List Char) :
    searchManAux [] l = specRunBeforeMan [] l :=
  searchManAux_eq_spec l [] [] rfl

theorem extractPlain_val (l : List Char) (t : List Char) (q : ℚ)
    (ht : firstRun (stripSeps l) = some t) (hq : parseFloat t = some q) :
    extractPlain l = ExtractResult.val q := by
  have h := findNums_head (stripSeps l)
  rw [ht] at h
  unfold extractPlain
  cases hfn : findNums (stripSeps l) with
  | nil => rw [hfn] at h; simp at h
  | cons a rest =>
    rw [hfn] at h
    simp only [List.head?_cons, Option.some.injEq] at h
    subst h
    simp [hq]

theorem extractPlain_absent (l : List Char)
    (ht : firstRun (stripSeps l) = none) :
    extractPlain l = ExtractResult.absent := by
  have h := findNums_head (stripSeps l)
  rw [ht] at h
  unfold extractPlain
  cases hfn : findNums (stripSeps l) with
  | nil => rfl
  | cons a rest => rw [hfn] at h; simp at h

theorem extractPlain_not_err (l : List Char)
    (h : ∀ t, firstRun (stripSeps l) = some t → (parseFloat t).isSome) :
    extractPlain l ≠ ExtractResult.err := by
  cases ht : firstRun (stripSeps l) with
  | none => rw [extractPlain_absent l ht]; simp
  | some t =>
    have hs := h t ht
    cases hq : parseFloat t with
    | none => rw [hq] at hs; simp at hs
    | some q => rw [extractPlain_val l t q ht hq]; simp

theorem extractNumberL_man_val (l : List Char) (t : List Char) (q : ℚ)
    (hman : l.contains '万' = true)
    (ht : specRunBeforeMan [] l = some t) (hq : parseFloat t = some q) :
    extractNumberL l = ExtractResult.val (q * 10000) := by
  unfold extractNumberL
  rw [hman, searchMan_eq_spec, ht]
  simp [hq]

theorem extractNumberL_fallthrough (l : List Char)
    (h : l.contains '万' = false ∨ specRunBeforeMan [] l = none) :
    extractNumberL l = extractPlain l := by
  unfold extractNumberL
  rcases h with h | h
  · rw [h]; simp
  · cases hman : l.contains '万' with
    | false => simp
    | true => simp [searchMan_eq_spec, h]

theorem searchManAux_no_digits (l : List Char)
    (h : ∀ c ∈ l, digitsDot c = false) :
    searchManAux [] l = none := by
  induction l with
  | nil => rfl
  | cons c cs ih =>
    have hc := h c (by simp)
    have hrest : ∀ c ∈ cs, digitsDot c = false := fun d hd => h d (by simp [hd])
    simp [searchManAux, hc, ih hrest]

theorem firstRun_no_digits (l : List Char)
    (h : ∀ c ∈ l, digitsDot c = false) :
    firstRun l = none := by
  unfold firstRun
  have : l.dropWhile (fun c => !digitsDot c) = [] := by
    rw [List.dropWhile_eq_nil_iff]
    intro x hx
    simp [h x hx]
  rw [this]

/-- C1 (counterexample): for the money-like listing fragment
`"2DK 8.5万円"`, which contains the marker `'万'`, the parser returns
85000 — the number adjacent to `'万'` times 10000 — while the *leading*
decimal number of the text is 2, and 85000 ≠ 2 · 10000.  So the result
does not equal the leading decimal number multiplied by 10000. -/
theorem extract_number_leading_counterexample :
    extract_number "2DK 8.5万円" = ExtractResult.val 85000 ∧
    leadingNumber "2DK 8.5万円" = some 2 ∧
    ((85000 : ℚ) ≠ 2 * 10000) :=
  ⟨by decide, by decide, by decide⟩

/-- C1 (amended): if the text contains `'万'` and some digit/dot run
directly precedes an occurrence of `'万'`, the result is the first such
run's value multiplied by 10000 (not the leading number of the text);
if `'万'` is absent, or present with no directly preceding run, then
after removing every comma and every `'円'` character the result is the
value of the first digit/dot run, and the absent signal when the text
has no such run. -/
theorem extract_number_normalization (s : String) :
    (∀ t q, s.toList.contains '万' = true →
      specRunBeforeMan [] s.toList = some t → parseFloat t = some q →
      extract_number s = ExtractResult.val (q * 10000)) ∧
    ((s.toList.contains '万' = false ∨ specRunBeforeMan [] s.toList = none) →
      (∀ t q, firstRun (stripSeps s.toList) = some t → parseFloat t = some q →
        extract_number s = ExtractResult.val q) ∧
      (firstRun (stripSeps s.toList) = none →
        extract_number s = ExtractResult.absent)) := by
  refine ⟨fun t q hman ht hq => extractNumberL_man_val _ t q hman ht hq,
    fun h => ⟨fun t q ht hq => ?_, fun ht => ?_⟩⟩
  · show extractNumberL s.toList = _
    rw [extractNumberL_fallthrough _ h]
    exact extractPlain_val _ t q ht hq
  · show extractNumberL s.toList = _
    rw [extractNumberL_fallthrough _ h]
    exact extractPlain_absent _ ht

/-- Witness for the amended C1 theorem at the input `"8.5万円"`. -/
theorem extract_number_normalization_witness :
    ("8.5万円".toList.contains '万' = true) ∧
    specRunBeforeMan [] "8.5万円".toList = some ['8', '.', '5'] ∧
    parseFloat ['8', '.', '5'] = some (17 / 2) ∧
    extract_number "8.5万円" = ExtractResult.val (17 / 2 * 10000) :=
  ⟨by decide, by decide, by decide,
    (extract_number_normalization "8.5万円").1 ['8', '.', '5'] (17 / 2)
      (by decide) (by decide) (by decide)⟩

/-- C2 (counterexample): the parser is not total.  On the input `"."`
the regex `[\d.]+` matches the token `"."`, and Python's `float(".")`
raises `ValueError`; the function neither returns a number nor signals
absence. -/
theorem extract_number_raises_on_dot :
    extract_number "." = ExtractResult.err :=
  by decide

/-- C2 (amended): the parser returns the absent signal on every text
with no digit and no dot at all, and it returns a value or the absent
signal — never an exception — whenever every digit/dot token it selects
is a well-formed decimal (at least one digit, at most one dot).  It does
raise `ValueError` when the selected token is malformed, e.g. on `"."`. -/
theorem extract_number_totality (s : String) :
    ((∀ c ∈ s.toList, digitsDot c = false) →
      extract_number s = ExtractResult.absent) ∧
    ((∀ t, specRunBeforeMan [] s.toList = some t → (parseFloat t).isSome) →
     (∀ t, firstRun (stripSeps s.toList) = some t → (parseFloat t).isSome) →
      extract_number s ≠ ExtractResult.err) := by
  constructor
  · intro h
    have hstrip : ∀ c ∈ stripSeps s.toList, digitsDot c = false :=
      fun c hc => h c (List.mem_of_mem_filter hc)
    have hplain := extractPlain_absent s.toList (firstRun_no_digits _ hstrip)
    have hsm := searchManAux_no_digits s.toList h
    have hsp : specRunBeforeMan [] s.toList = none := by
      rw [← searchMan_eq_spec]; exact hsm
    show extractNumberL s.toList = _
    rw [extractNumberL_fallthrough _ (Or.inr hsp)]
    exact hplain
  · intro h1 h2
    have hplain := extractPlain_not_err s.toList h2
    show extractNumberL s.toList ≠ _
    cases hman : s.toList.contains '万' with
    | false =>
      rw [extractNumberL_fallthrough _ (Or.inl hman)]
      exact hplain
    | true =>
      cases hsp : specRunBeforeMan [] s.toList with
      | none =>
        rw [extractNumberL_fallthrough _ (Or.inr hsp)]
        exact hplain
      | some t =>
        obtain ⟨q, hq⟩ := Option.isSome_iff_exists.mp (h1 t hsp)
        rw [extractNumberL_man_val _ t q hman hsp hq]
        simp

/-- Witness for the amended C2 theorem at the input `"abc"`. -/
theorem extract_number_totality_witness :
    (∀ c ∈ "abc".toList, digitsDot c = false) ∧
    extract_number "abc" = ExtractResult.absent :=
  ⟨by decide, (extract_number_totality "abc").1 (by decide)⟩

theorem fracOfDigits_nonneg (l : List Char) : 0 ≤ fracOfDigits l := by
  induction l with
  | nil => simp [fracOfDigits]
  | cons c cs ih =>
    show 0 ≤ ((digitVal c : ℚ) + fracOfDigits cs) / 10
    have h1 : (0 : ℚ) ≤ (digitVal c : ℚ) + fracOfDigits cs :=
      add_nonneg (Nat.cast_nonneg _) ih
    have h2 : (0 : ℚ) ≤ 10 := by norm_num
    exact div_nonneg h1 h2

theorem floatVal_nonneg (t : List Char) : 0 ≤ floatVal t :=
  add_nonneg (Nat.cast_nonneg _) (fracOfDigits_nonneg _)

theorem parseFloat_nonneg (t : List Char) (q : ℚ)
    (h : parseFloat t = some q) : 0 ≤ q := by
  unfold parseFloat at h
  split at h
  · cases h
    exact floatVal_nonneg t
  · cases h

theorem extractPlain_nonneg (l : List Char) (q : ℚ)
    (h : extractPlain l = ExtractResult.val q) : 0 ≤ q := by
  unfold extractPlain at h
  cases hf : findNums (stripSeps l) with
  | nil => rw [hf] at h; cases h
  | cons t rest =>
    rw [hf] at h
    dsimp only at h
    cases hp : parseFloat t with
    | none => rw [hp] at h; cases h
    | some q' =>
      rw [hp] at h
      cases h
      exact parseFloat_nonneg t _ hp

theorem extractNumberL_nonneg (l : List Char) (q : ℚ)
    (h : extractNumberL l = ExtractResult.val q) : 0 ≤ q := by
  unfold extractNumberL at h
  split at h
  · cases hs : searchManAux [] l with
    | none => rw [hs] at h; exact extractPlain_nonneg l q h
    | some t =>
      rw [hs] at h
      dsimp only at h
      cases hp : parseFloat t with
      | none => rw [hp] at h; cases h
      | some q' =>
        rw [hp] at h
        cases h
        have h1 := parseFloat_nonneg t q' hp
        positivity
  · exact extractPlain_nonneg l q h

theorem extract_number_nonneg (s : String) (q : ℚ)
    (h : extract_number s = ExtractResult.val q) : 0 ≤ q :=
  extractNumberL_nonneg s.toList q h

theorem adminFeeOf_nonneg (room : Room) (fee : ℚ)
    (h : adminFeeOf room = some fee) : 0 ≤ fee := by
  unfold adminFeeOf at h
  cases ha : room.admin_text with
  | none => rw [ha] at h; cases h; exact le_refl 0
  | some a =>
    rw [ha] at h
    dsimp only at h
    by_cases hd : a = "-"
    · rw [if_pos hd] at h; cases h; exact le_refl 0
    · rw [if_neg hd] at h
      cases he : extract_number a with
      | val q => rw [he] at h; cases h; exact extract_number_nonneg a fee he
      | absent => rw [he] at h; cases h; exact le_refl 0
      | err => rw [he] at h; cases h

theorem processRoom_invariant (nm ad an : String) (room : Room)
    (rec : ListingRecord) (h : processRoom nm ad an room = some rec) :
    rec.total = rec.rent + rec.admin_fee ∧ 10000 ≤ rec.rent ∧
      0 ≤ rec.admin_fee := by
  unfold processRoom at h
  cases hpt : room.price_text with
  | none => rw [hpt] at h; cases h
  | some pt =>
    rw [hpt] at h
    dsimp only at h
    cases hex : extract_number pt with
    | err => rw [hex] at h; cases h
    | absent => rw [hex] at h; cases h
    | val price =>
      rw [hex] at h
      dsimp only at h
      by_cases hlt : price < 10000
      · rw [if_pos hlt] at h; cases h
      · rw [if_neg hlt] at h
        cases haf : adminFeeOf room with
        | none => rw [haf] at h; cases h
        | some fee =>
          rw [haf] at h
          dsimp only at h
          cases h
          exact ⟨rfl, le_of_not_lt hlt, adminFeeOf_nonneg room fee haf⟩

theorem processRoom_skip_absent (nm ad an : String) (room : Room)
    (pt : String) (hpt : room.price_text = some pt)
    (h : extract_number pt = ExtractResult.absent) :
    processRoom nm ad an room = none := by
  unfold processRoom
  rw [hpt]
  dsimp only
  rw [h]

theorem processRoom_skip_low (nm ad an : String) (room : Room)
    (pt : String) (p : ℚ) (hpt : room.price_text = some pt)
    (h : extract_number pt = ExtractResult.val p) (hp : p < 10000) :
    processRoom nm ad an room = none := by
  unfold processRoom
  rw [hpt]
  dsimp only
  rw [h]
  dsimp only
  rw [if_pos hp]

theorem pageRecords_invariant (an : String) (pr : PageResult)
    (rec : ListingRecord) (h : rec ∈ pageRecords an pr) :
    rec.total = rec.rent + rec.admin_fee ∧ 10000 ≤ rec.rent ∧
      0 ≤ rec.admin_fee := by
  cases pr with
  | fail => cases h
  | http status cas =>
    dsimp only [pageRecords] at h
    split at h
    · cases h
    · rw [List.mem_flatten] at h
      obtain ⟨l, hl, hrec⟩ := h
      rw [List.mem_map] at hl
      obtain ⟨c, _, hcl⟩ := hl
      subst hcl
      unfold processCassette at hrec
      cases ht : c.title with
      | none => rw [ht] at hrec; cases hrec
      | some nm =>
        rw [ht] at hrec
        rw [List.mem_filterMap] at hrec
        obtain ⟨room, _, hpr⟩ := hrec
        exact processRoom_invariant _ _ _ _ _ hpr

/-- C3 (confirmed): every `ListingRecord` produced by `scrape_area` (for
any page-content environment) satisfies `total = rent + admin_fee`,
`rent ≥ 10000` and `admin_fee ≥ 0`; and a room whose parsed price is
absent, or parses below 10000, yields no record. -/
theorem listing_record_invariants :
    (∀ (env : String → PageResult) (code an : String) (pages : ℕ)
       (rec : ListingRecord), rec ∈ (scrape_area env code an pages).1 →
       rec.total = rec.rent + rec.admin_fee ∧ 10000 ≤ rec.rent ∧
         0 ≤ rec.admin_fee) ∧
    (∀ (nm ad an : String) (room : Room) (pt : String),
       room.price_text = some pt →
       (extract_number pt = ExtractResult.absent →
         processRoom nm ad an room = none) ∧
       (∀ p : ℚ, extract_number pt = ExtractResult.val p → p < 10000 →
         processRoom nm ad an room = none)) := by
  constructor
  · intro env code an pages rec h
    unfold scrape_area at h
    cases hc : areaCodeOf an with
    | none => rw [hc] at h; cases h
    | some sc =>
      rw [hc] at h
      dsimp only at h
      rw [List.mem_flatten] at h
      obtain ⟨l, hl, hrec⟩ := h
      rw [List.mem_map] at hl
      obtain ⟨u, _, hul⟩ := hl
      subst hul
      exact pageRecords_invariant an (env u) rec hrec
  · intro nm ad an room pt hpt
    exact ⟨processRoom_skip_absent nm ad an room pt hpt,
      fun p hv hlt => processRoom_skip_low nm ad an room pt p hpt hv hlt⟩

/-- Witness for the C3 theorem: a concrete one-room page yields the
record `recW`, which satisfies the invariants. -/
theorem listing_record_invariants_witness :
    recW ∈ (scrape_area envW "13" "新宿区" 1).1 ∧
    (recW.total = recW.rent + recW.admin_fee ∧ 10000 ≤ recW.rent ∧
      0 ≤ recW.admin_fee) :=
  ⟨by decide,
    listing_record_invariants.1 envW "13" "新宿区" 1 recW (by decide)⟩

/-- C9 (confirmed): called with an area name outside the supported set
{新宿区, 世田谷区}, `scrape_area` returns the empty record list and
fetches no URL; being a total function of its inputs, it raises no
exception on this path. -/
theorem scrape_area_unsupported (env : String → PageResult)
    (code an : String) (pages : ℕ)
    (h1 : an ≠ "新宿区") (h2 : an ≠ "世田谷区") :
    scrape_area env code an pages = ([], []) := by
  have e1 : (("新宿区" : String) == an) = false :=
    beq_eq_false_iff_ne.mpr (Ne.symm h1)
  have e2 : (("世田谷区" : String) == an) = false :=
    beq_eq_false_iff_ne.mpr (Ne.symm h2)
  unfold scrape_area areaCodeOf AREA_CODES
  simp [List.find?_cons, e1, e2]

/-- Witness for the C9 theorem at the dropped area `"渋谷区"`. -/
theorem scrape_area_unsupported_witness :
    ("渋谷区" ≠ ("新宿区" : String)) ∧ ("渋谷区" ≠ ("世田谷区" : String)) ∧
    scrape_area envW "13113" "渋谷区" 3 = ([], []) :=
  ⟨by decide, by decide,
    scrape_area_unsupported envW "13113" "渋谷区" 3 (by decide) (by decide)⟩

/-- C10 (confirmed): the `area_code` argument of `scrape_area` does not
influence its result: two calls differing only in `area_code` return
identical record lists (and fetch identical URLs) in every environment.
The lookup key is `area_name` alone. -/
theorem scrape_area_ignores_area_code (env : String → PageResult)
    (code1 code2 an : String) (pages : ℕ) :
    scrape_area env code1 an pages = scrape_area env code2 an pages := rfl

/-- C6 (counterexample): with `min_rent = 0` the lower bound is dropped
— Python `if min_rent:` is false at 0 — so the query returns a row with
total −5 although −5 does not satisfy `0 ≤ total ≤ 10`.  The result is
not exactly the set with `X ≤ total ≤ Y`. -/
theorem get_by_conditions_zero_counterexample :
    get_properties_by_conditions [rowNeg] none (some 0) (some 10) none
      = [rowNeg] ∧
    ¬((0 : ℚ) ≤ rowNeg.total ∧ rowNeg.total ≤ 10) :=
  ⟨by decide, by decide⟩

/-- C6 (amended): for nonzero bounds X and Y the dynamic filter returns
exactly the rows with X ≤ total ≤ Y (inclusive); parameters that are
omitted — or equal to a falsy value such as 0 — are excluded from the
filter entirely, and with no condition at all every row is returned. -/
theorem get_by_conditions_range (db : List DBRow) (X Y : ℚ)
    (hX : X ≠ 0) (hY : Y ≠ 0) :
    get_properties_by_conditions db none (some X) (some Y) none =
      db.filter (fun r => decide (X ≤ r.total) && decide (r.total ≤ Y)) ∧
    get_properties_by_conditions db none none none none = db := by
  constructor
  · unfold get_properties_by_conditions
    apply List.filter_congr
    intro r _
    simp [condMatches, hX, hY]
  · unfold get_properties_by_conditions
    simp [condMatches]

/-- Witness for the amended C6 theorem with bounds 1 and 10. -/
theorem get_by_conditions_range_witness :
    ((1 : ℚ) ≠ 0) ∧ ((10 : ℚ) ≠ 0) ∧
    (get_properties_by_conditions [rowNeg] none (some 1) (some 10) none =
      [rowNeg].filter
        (fun r => decide ((1 : ℚ) ≤ r.total) && decide (r.total ≤ 10)) ∧
     get_properties_by_conditions [rowNeg] none none none none = [rowNeg]) :=
  ⟨by decide, by decide,
    get_by_conditions_range [rowNeg] 1 10 (by decide) (by decide)⟩

/-- C7 (counterexample): `save_properties` binds the record field
`total` verbatim into the INSERT: a record with total 99 and rent +
admin_fee = 2 is stored with total 99, so the stored total is taken on
trust, not recomputed at persistence. -/
theorem save_properties_trusts_total :
    save_properties [] [badRec] = [badRow] ∧
    badRow.total ≠ badRow.rent + badRow.admin_fee :=
  ⟨by decide, by decide⟩

/-- C7 (amended): `save_properties` copies each record's fields —
`total` included — verbatim into the store, so every persisted row
satisfies total = rent + admin_fee exactly when the prior rows and the
input records do (as the scraper's records do); persistence itself does
not recompute the total. -/
theorem save_properties_invariant (db : List DBRow)
    (props : List ListingRecord)
    (hdb : ∀ r ∈ db, r.total = r.rent + r.admin_fee)
    (hp : ∀ p ∈ props, p.total = p.rent + p.admin_fee) :
    ∀ r ∈ save_properties db props, r.total = r.rent + r.admin_fee := by
  intro r hr
  unfold save_properties at hr
  rw [List.mem_append] at hr
  rcases hr with hr | hr
  · exact hdb r hr
  · rw [List.mem_map] at hr
    obtain ⟨p, hp2, rfl⟩ := hr
    exact hp p hp2

/-- Witness for the amended C7 theorem: saving the consistent record
`recW` into an empty store yields only consistent rows. -/
theorem save_properties_invariant_witness :
    (∀ r ∈ ([] : List DBRow), r.total = r.rent + r.admin_fee) ∧
    (∀ p ∈ [recW], p.total = p.rent + p.admin_fee) ∧
    (∀ r ∈ save_properties [] [recW], r.total = r.rent + r.admin_fee) :=
  ⟨by decide, by decide,
    save_properties_invariant [] [recW] (by decide) (by decide)⟩

theorem mem_insertByAvgDesc (g x : LayoutStat) (l : List LayoutStat) :
    x ∈ insertByAvgDesc g l ↔ x = g ∨ x ∈ l := by
  induction l with
  | nil => simp [insertByAvgDesc]
  | cons h t ih =>
    unfold insertByAvgDesc
    by_cases hc : h.avg_rent ≤ g.avg_rent
    · rw [if_pos hc]
      simp
    · rw [if_neg hc]
      simp only [List.mem_cons, ih]
      tauto

theorem mem_sortByAvgDesc (x : LayoutStat) (l : List LayoutStat) :
    x ∈ sortByAvgDesc l ↔ x ∈ l := by
  induction l with
  | nil => simp [sortByAvgDesc]
  | cons h t ih => simp [sortByAvgDesc, mem_insertByAvgDesc, ih]

theorem pairwise_insertByAvgDesc (g : LayoutStat) (l : List LayoutStat)
    (hl : l.Pairwise statGE) : (insertByAvgDesc g l).Pairwise statGE := by
  induction l with
  | nil => simp [insertByAvgDesc]
  | cons h t ih =>
    rw [List.pairwise_cons] at hl
    obtain ⟨hh, ht⟩ := hl
    unfold insertByAvgDesc
    by_cases hc : h.avg_rent ≤ g.avg_rent
    · rw [if_pos hc, List.pairwise_cons]
      constructor
      · intro b hb
        rcases List.mem_cons.mp hb with rfl | hb
        · exact hc
        · exact le_trans (hh b hb) hc
      · exact List.pairwise_cons.mpr ⟨hh, ht⟩
    · rw [if_neg hc, List.pairwise_cons]
      refine ⟨?_, ih ht⟩
      intro b hb
      rw [mem_insertByAvgDesc] at hb
      rcases hb with rfl | hb
      · exact le_of_not_le hc
      · exact hh b hb

theorem sortByAvgDesc_pairwise (l : List LayoutStat) :
    (sortByAvgDesc l).Pairwise statGE := by
  induction l with
  | nil => simp [sortByAvgDesc]
  | cons h t ih => exact pairwise_insertByAvgDesc h _ ih

/-- C8 (confirmed): every group returned by `get_layout_stats` has a
count of at least 5 and a non-empty layout key, and the returned groups
are ordered by mean total descending. -/
theorem layout_stats_contract (db : List DBRow) :
    (∀ g ∈ get_layout_stats db, 5 ≤ g.count ∧ g.layout ≠ "") ∧
    (get_layout_stats db).Pairwise statGE := by
  constructor
  · intro g hg
    unfold get_layout_stats at hg
    rw [mem_sortByAvgDesc, List.mem_filter] at hg
    obtain ⟨hmem, hcnt⟩ := hg
    constructor
    · simpa using hcnt
    · rw [List.mem_map] at hmem
      obtain ⟨key, hkey, rfl⟩ := hmem
      show key ≠ ""
      rw [List.mem_dedup, List.mem_map] at hkey
      obtain ⟨r, hr, rfl⟩ := hkey
      rw [List.mem_filter] at hr
      simpa using hr.2
  · unfold get_layout_stats
    exact sortByAvgDesc_pairwise _

/-- Witness for the C8 theorem on a five-row table. -/
theorem layout_stats_contract_witness :
    statK ∈ get_layout_stats (List.replicate 5 rowK) ∧
    (5 ≤ statK.count ∧ statK.layout ≠ "") :=
  ⟨by decide,
    (layout_stats_contract (List.replicate 5 rowK)).1 statK (by decide)⟩

/-- C4 (confirmed): for every stored record set the acceptance flag is
true iff the relative difference percentage — (mean(Shinjuku totals) −
mean(Setagaya totals)) / mean(Setagaya totals) · 100 — is at least 30;
the flag is independent of the t-test (two runs with different t-test
implementations agree on it); and the result record exposes the flag
and the t-statistic/p-value as separate fields. -/
theorem hypothesis_acceptance (db : List DBRow)
    (t1 t2 : List ℚ → List ℚ → ℚ × ℚ) :
    ((verify_hypothesis t1 db).hypothesis_accepted = true ↔
      30 ≤ (meanQ (totalsOf db "新宿区") - meanQ (totalsOf db "世田谷区")) /
        meanQ (totalsOf db "世田谷区") * 100) ∧
    (verify_hypothesis t1 db).hypothesis_accepted =
      (verify_hypothesis t2 db).hypothesis_accepted ∧
    (verify_hypothesis t1 db).t_stat =
      (if 2 ≤ (totalsOf db "新宿区").length ∧
          2 ≤ (totalsOf db "世田谷区").length
       then some (t1 (totalsOf db "新宿区") (totalsOf db "世田谷区")).1
       else none) ∧
    (verify_hypothesis t1 db).p_value =
      (if 2 ≤ (totalsOf db "新宿区").length ∧
          2 ≤ (totalsOf db "世田谷区").length
       then some (t1 (totalsOf db "新宿区") (totalsOf db "世田谷区")).2
       else none) :=
  ⟨decide_eq_true_iff, rfl, rfl, rfl⟩

/-- C5 (code bug): with the Shinjuku group holding a single record,
`verify_hypothesis` checks no precondition and returns a normal result
whose standard deviation and t-test fields are NaN (`none`), instead of
failing with a descriptive error as the spec demands.  The embedding is
total by construction because the Python function has no raise path for
small groups. -/
theorem verify_hypothesis_no_small_group_check :
    (verify_hypothesis (fun _ _ => (0, 0)) dbSmall).high_std = none ∧
    (verify_hypothesis (fun _ _ => (0, 0)) dbSmall).p_value = none ∧
    (verify_hypothesis (fun _ _ => (0, 0)) dbSmall).hypothesis_accepted
      = false :=
  ⟨by decide, by decide, by decide⟩

end Suumo
